import Mathlib

/-!
Shallow embedding of the seat-booking server (Express backend found in the
repository's source; constants, models and route handlers are translated
one-to-one from the JavaScript).

Modelling conventions:
* `Date` is a natural-number day index inside one ISO week-year:
  day `0` is the Monday of ISO week 1, so `isoWeekOf d = d / 7 + 1` and
  the weekday index is `d % 7` (`0` = Mon … `5` = Sat, `6` = Sun).  The
  source stores dates as `YYYY-MM-DD` strings and derives the same data
  through moment.js (`isoWeek()`, `format('ddd')`, `day()`).
* Wall-clock time is a single `Clock` value per request (`ts` is the
  millisecond timestamp returned by `Date.now()`, `today`/`hour` are the
  calendar day and local hour that `moment()` would report at the same
  instant).
* Route handlers return their JSON outcome together with the state the
  in-memory globals (`bookings`, `locks`, `leaves`) hold after the call,
  since the source mutates those globals even on some rejected requests.
* Error response messages are represented by an inductive `ApiError`;
  each constructor carries the data interpolated into the source's
  message string.
-/

namespace Seating

abbrev UserId := String

abbrev Date := Nat

abbrev Timestamp := Nat

/-- LOCK_DURATION_MS = 2 * 60 * 1000 in the source. -/
def LOCK_DURATION_MS : Nat := 2 * 60 * 1000

/-- MAX_SEATS_PER_BOOKING = 5 in the source. -/
def MAX_SEATS_PER_BOOKING : Nat := 5

/-- FLOATER_SEAT_COUNT = 10 in the source. -/
def FLOATER_SEAT_COUNT : Nat := 10

inductive SeatType where
  | designated
  | floater
deriving DecidableEq, Repr

/-- Seat base model: `{ seatId, type, assignedTo }`. -/
structure SeatDef where
  seatId : Nat
  type : SeatType
  assignedTo : Option UserId
deriving DecidableEq, Repr

inductive Batch where
  | batch1
  | batch2
deriving DecidableEq, Repr

/-- One batch's rotation row: the weekdays (0 = Mon … 6 = Sun) it attends
in `week1` (odd ISO week) and `week2` (even ISO week).  The source keys the
lists by day names `'Mon'`/…/`'Sun'`. -/
structure WeekSchedule where
  week1 : List Nat
  week2 : List Nat
deriving DecidableEq, Repr

/-- The global `batchSchedule` object mapping each batch to its rotation. -/
structure BatchScheduleCfg where
  batch1 : WeekSchedule
  batch2 : WeekSchedule
deriving DecidableEq, Repr

def BatchScheduleCfg.get (c : BatchScheduleCfg) : Batch → WeekSchedule
  | .batch1 => c.batch1
  | .batch2 => c.batch2

/-- DEFAULT_BATCH_SCHEDULE from the source:
batch1 = { week1: [Mon,Tue,Wed], week2: [Thu,Fri] },
batch2 = { week1: [Thu,Fri],     week2: [Mon,Tue,Wed] }. -/
def DEFAULT_BATCH_SCHEDULE : BatchScheduleCfg :=
  { batch1 := { week1 := [0, 1, 2], week2 := [3, 4] },
    batch2 := { week1 := [3, 4], week2 := [0, 1, 2] } }

/-- User record (auth-only fields `name`, `email`, `passwordHash` omitted). -/
structure User where
  userId : UserId
  batch : Batch
  designatedSeatId : Option Nat
  floaterLeaveCount : Nat
  isAdmin : Bool
deriving DecidableEq, Repr

/-- bookings entry: `{ date, seatId, userId, bookedAt }`. -/
structure Booking where
  date : Date
  seatId : Nat
  userId : UserId
  bookedAt : Timestamp
deriving DecidableEq, Repr

/-- locks entry: `{ date, seatId, userId, lockExpiry }`. -/
structure Lock where
  date : Date
  seatId : Nat
  userId : UserId
  lockExpiry : Timestamp
deriving DecidableEq, Repr

/-- leaves entry: `{ date, userId, seatId }` (seat held at time of leave). -/
structure Leave where
  userId : UserId
  date : Date
  seatId : Option Nat
deriving DecidableEq, Repr

/-- The mutable process-wide collections the handlers read and write. -/
structure ServerState where
  seatDefinitions : List SeatDef
  bookings : List Booking
  locks : List Lock
  leaves : List Leave
  batchSchedule : BatchScheduleCfg
  holidays : List Date
deriving DecidableEq, Repr

/-- One consistent wall-clock reading for a request: `ts` is `Date.now()`,
`today` and `hour` are what `moment()` reports at the same instant. -/
structure Clock where
  today : Date
  hour : Nat
  ts : Timestamp
deriving DecidableEq, Repr

/-- initSeatDefinitions: 50 seats, the last FLOATER_SEAT_COUNT are floaters,
none assigned. -/
def initSeatDefinitions : List SeatDef :=
  (List.range 50).map (fun i =>
    let seatId := i + 1
    { seatId := seatId
      type := if 50 - FLOATER_SEAT_COUNT + 1 ≤ seatId then .floater else .designated
      assignedTo := none })

/-- The state right after server start: seats initialised, empty stores,
default schedule, no holidays. -/
def initialState : ServerState :=
  { seatDefinitions := initSeatDefinitions
    bookings := []
    locks := []
    leaves := []
    batchSchedule := DEFAULT_BATCH_SCHEDULE
    holidays := [] }

/-! ## Utilities (one per source helper) -/

/-- `getSeatDefinition(seatId)` on an explicit catalog list. -/
def getSeatDefinitionIn (defs : List SeatDef) (seatId : Nat) : Option SeatDef :=
  defs.find? (fun sd => sd.seatId == seatId)

/-- `getSeatDefinition(seatId)`: first seat with that id. -/
def getSeatDefinition (s : ServerState) (seatId : Nat) : Option SeatDef :=
  getSeatDefinitionIn s.seatDefinitions seatId

/-- Error taxonomy; each constructor stands for one response message of the
source, carrying the data interpolated into the message string. -/
inductive ApiError where
  | emptySeatIds
  | unknownSeat (seatId : Nat)
  | tooManySeats
  | weekendOrHoliday
  | onLeave
  | advanceBooking
  | notYourDesignatedSeat (seatId : Nat)
  | notBatchDay
  | alreadyBooked (seatId : Nat)
  | lockedByOther (seatId : Nat)
  | lockExpired (seatId : Nat)
  | notOwnBooking (seatId : Nat)
  | activeBookingForDate
deriving DecidableEq, Repr

/-- `validateSeatIds(seatIds)`: non-empty and every id exists in the
catalog.  The source tests the found offender with JS truthiness
(`const invalid = seatIds.find(...); if (invalid)`), so when the *first*
unknown id is `0` the test is falsy and no error is reported for it. -/
def validateSeatIds (s : ServerState) (seatIds : List Nat) : Option ApiError :=
  if seatIds.isEmpty then some .emptySeatIds
  else
    match seatIds.find? (fun id => (getSeatDefinition s id).isNone) with
    | some id => if id = 0 then none else some (.unknownSeat id)
    | none => none

/-- `isWeekend(dateStr)`: Saturday (5) or Sunday (6) in the 0 = Mon
encoding (the source tests `day() === 0 || day() === 6` in moment's
0 = Sun encoding). -/
def isWeekend (d : Date) : Bool :=
  d % 7 == 5 || d % 7 == 6

/-- `isHoliday(dateStr)`: membership in the global holiday set. -/
def isHoliday (s : ServerState) (d : Date) : Bool :=
  s.holidays.contains d

/-- `d.isoWeek()` for the day-index date model: day 0 is the Monday of
ISO week 1. -/
def isoWeekOf (d : Date) : Nat :=
  d / 7 + 1

/-- `getWeekType(dateStr)`: `true` for week1 (odd ISO week), `false` for
week2 (even ISO week); the source returns the strings 'week1'/'week2'. -/
def weekTypeIsWeek1 (d : Date) : Bool :=
  ¬ (isoWeekOf d % 2 == 0)

/-- `getDayName(dateStr)` as a weekday index 0 = Mon … 6 = Sun (the source
formats day names like 'Mon'). -/
def getDayIndex (d : Date) : Nat :=
  d % 7

/-- `isBatchScheduledOnDate(batch, dateStr)`. -/
def isBatchScheduledOnDate (cfg : BatchScheduleCfg) (b : Batch) (d : Date) : Bool :=
  let sched := cfg.get b
  let allowedDays := if weekTypeIsWeek1 d then sched.week1 else sched.week2
  allowedDays.contains (getDayIndex d)

/-- `getCycleBounds(dateStr)`: week1Num is the ISO week itself when odd,
else the week before; the cycle runs from the Monday of week1Num through
the Sunday of week1Num + 1. -/
def getCycleBounds (d : Date) : Nat × Nat :=
  let isoWeek := isoWeekOf d
  let week1Num := if isoWeek % 2 = 1 then isoWeek else isoWeek - 1
  (7 * (week1Num - 1), 7 * (week1Num + 1) - 1)

/-- The set (deduplicated list) of the user's booked dates falling inside
the two-week cycle of `d`; `getAttendanceCountForCycle` is its size. -/
def attendanceDatesForCycle (s : ServerState) (uid : UserId) (d : Date) : List Date :=
  let bounds := getCycleBounds d
  ((s.bookings.filter (fun b =>
      b.userId == uid && decide (bounds.1 ≤ b.date) && decide (b.date ≤ bounds.2))).map
    (fun b => b.date)).dedup

/-- `getAttendanceCountForCycle(userId, dateStr)`. -/
def getAttendanceCountForCycle (s : ServerState) (uid : UserId) (d : Date) : Nat :=
  (attendanceDatesForCycle s uid d).length

/-- `clearExpiredLocksForDate(dateStr)`: keep a lock iff it is for another
date or still live (`lockExpiry > now`). -/
def clearExpiredLocksForDate (now : Timestamp) (d : Date) (s : ServerState) : ServerState :=
  { s with locks := s.locks.filter (fun l => !(l.date == d) || decide (now < l.lockExpiry)) }

/-- `isUserOnLeave(userId, dateStr)` on an explicit leave ledger. -/
def isUserOnLeaveIn (leaves : List Leave) (uid : UserId) (d : Date) : Bool :=
  leaves.any (fun l => l.userId == uid && l.date == d)

/-- `isUserOnLeave(userId, dateStr)`. -/
def isUserOnLeave (s : ServerState) (uid : UserId) (d : Date) : Bool :=
  isUserOnLeaveIn s.leaves uid d

inductive SeatStatus where
  | available
  | locked
  | occupied
deriving DecidableEq, Repr

/-- The per-seat record `getSeatStateForDate` returns.  `row`/`number` are
the purely presentational grid coordinates (the source renders `row` as the
letter 'A' + rowIndex). -/
structure SeatView where
  seatId : Nat
  row : Nat
  number : Nat
  status : SeatStatus
  bookedBy : Option UserId
  lockedBy : Option UserId
  lockExpiry : Option Timestamp
  type : SeatType
  assignedTo : Option UserId
deriving DecidableEq, Repr

/-- The body of `getSeatStateForDate`'s map: booking wins over live lock
wins over available. -/
def projectSeat (now : Timestamp) (d : Date) (s : ServerState) (index : Nat)
    (sd : SeatDef) : SeatView :=
  let booking := s.bookings.find? (fun b => b.date == d && b.seatId == sd.seatId)
  let lock := s.locks.find? (fun l =>
    l.date == d && l.seatId == sd.seatId && decide (now < l.lockExpiry))
  match booking, lock with
  | some b, _ =>
      { seatId := sd.seatId, row := index / 10, number := index % 10 + 1
        status := .occupied, bookedBy := some b.userId, lockedBy := none
        lockExpiry := none, type := sd.type, assignedTo := sd.assignedTo }
  | none, some l =>
      { seatId := sd.seatId, row := index / 10, number := index % 10 + 1
        status := .locked, bookedBy := none, lockedBy := some l.userId
        lockExpiry := some l.lockExpiry, type := sd.type, assignedTo := sd.assignedTo }
  | none, none =>
      { seatId := sd.seatId, row := index / 10, number := index % 10 + 1
        status := .available, bookedBy := none, lockedBy := none
        lockExpiry := none, type := sd.type, assignedTo := sd.assignedTo }

/-- `getSeatStateForDate(dateStr)`: purges the date's expired locks (a
mutation of the global `locks`, hence the returned state) and projects
every catalog seat. -/
def getSeatStateForDate (clock : Clock) (d : Date) (s : ServerState) :
    ServerState × List SeatView :=
  let s1 := clearExpiredLocksForDate clock.ts d s
  (s1, s1.seatDefinitions.enum.map (fun p => projectSeat clock.ts d s1 p.1 p.2))

/-! ## Policy validation -/

/-- The per-seat ownership loop of `validateBookingPolicy` (step 5 of the
source): designated seats with an owner are floaters while the owner is on
leave; otherwise only the owner may book them, and only on a scheduled
batch day. -/
def seatOwnershipLoop (defs : List SeatDef) (leaves : List Leave) (user : User)
    (d : Date) (isBatchDay : Bool) : List Nat → Option ApiError
  | [] => none
  | seatId :: rest =>
    match getSeatDefinitionIn defs seatId with
    | none => some (.unknownSeat seatId)
    | some sd =>
      if sd.type = .designated then
        match sd.assignedTo with
        | none => seatOwnershipLoop defs leaves user d isBatchDay rest
        | some ownerId =>
          if isUserOnLeaveIn leaves ownerId d then
            seatOwnershipLoop defs leaves user d isBatchDay rest
          else if ownerId ≠ user.userId then
            some (.notYourDesignatedSeat seatId)
          else if isBatchDay then
            seatOwnershipLoop defs leaves user d isBatchDay rest
          else
            some .notBatchDay
      else
        seatOwnershipLoop defs leaves user d isBatchDay rest

/-- `validateBookingPolicy({user, dateStr, seatIds})`: weekend/holiday,
caller's leave, the 3 PM advance-booking gate for tomorrow, then the
per-seat ownership loop. -/
def validateBookingPolicy (clock : Clock) (s : ServerState) (user : User)
    (d : Date) (seatIds : List Nat) : Option ApiError :=
  if isWeekend d || isHoliday s d then some .weekendOrHoliday
  else if isUserOnLeave s user.userId d then some .onLeave
  else
    let isBatchDay := isBatchScheduledOnDate s.batchSchedule user.batch d
    if d == clock.today + 1 && decide (clock.hour < 15) then some .advanceBooking
    else seatOwnershipLoop s.seatDefinitions s.leaves user d isBatchDay seatIds

/-! ## Route handlers

Each handler returns its JSON outcome (`Except ApiError …`) paired with
the server state left behind — the source mutates the global collections,
sometimes even on requests that end in a 400 response. -/

/-- The availability/lock check loop of `POST /api/lock`: any booking on a
requested seat, or a live lock held by a different user, rejects the whole
batch. -/
def lockAvailabilityLoop (now : Timestamp) (user : User) (d : Date)
    (s : ServerState) : List Nat → Option ApiError
  | [] => none
  | seatId :: rest =>
    if (s.bookings.find? (fun b => b.date == d && b.seatId == seatId)).isSome then
      some (.alreadyBooked seatId)
    else
      match s.locks.find? (fun l => l.date == d && l.seatId == seatId) with
      | some l =>
          if l.userId ≠ user.userId ∧ now < l.lockExpiry then
            some (.lockedByOther seatId)
          else
            lockAvailabilityLoop now user d s rest
      | none => lockAvailabilityLoop now user d s rest

/-- The lock-writing loop of `POST /api/lock`: replace the caller's own
lock on `(date, seatId)` in place if one exists, else push a new one. -/
def upsertOwnLock (d : Date) (uid : UserId) (expiry : Timestamp) (locks : List Lock)
    (seatId : Nat) : List Lock :=
  let newLock : Lock := { date := d, seatId := seatId, userId := uid, lockExpiry := expiry }
  match locks.findIdx? (fun l => l.date == d && l.seatId == seatId && l.userId == uid) with
  | some i => locks.set i newLock
  | none => locks ++ [newLock]

/-- `POST /api/lock`: seat-id validation, an extra weekend/holiday gate,
full `validateBookingPolicy`, expired-lock purge, the availability loop,
then lock upserts with `expiresAt = now + LOCK_DURATION_MS`. -/
def acquireLocks (clock : Clock) (user : User) (d : Date) (seatIds : List Nat)
    (s : ServerState) : Except ApiError Unit × ServerState :=
  match validateSeatIds s seatIds with
  | some e => (.error e, s)
  | none =>
    if isWeekend d || isHoliday s d then (.error .weekendOrHoliday, s)
    else
      match validateBookingPolicy clock s user d seatIds with
      | some e => (.error e, s)
      | none =>
        match lockAvailabilityLoop clock.ts user d
            (clearExpiredLocksForDate clock.ts d s) seatIds with
        | some e => (.error e, clearExpiredLocksForDate clock.ts d s)
        | none =>
          let s1 := clearExpiredLocksForDate clock.ts d s
          (.ok (),
            { s1 with
              locks := seatIds.foldl
                (upsertOwnLock d user.userId (clock.ts + LOCK_DURATION_MS)) s1.locks })

/-- `POST /api/unlock`: drops only the caller's locks on the requested
`(date, seatId)` pairs. -/
def releaseLocks (user : User) (d : Date) (seatIds : List Nat)
    (s : ServerState) : Except ApiError Unit × ServerState :=
  match validateSeatIds s seatIds with
  | some e => (.error e, s)
  | none =>
    (.ok (),
      { s with
        locks := s.locks.filter (fun l =>
          !(l.date == d && seatIds.contains l.seatId && l.userId == user.userId)) })

/-- The availability check loop of `POST /api/book`: a booking on a
requested seat rejects; a lock on it held by a live different owner
rejects; an expired lock on it rejects. -/
def bookAvailabilityLoop (now : Timestamp) (user : User) (d : Date)
    (s : ServerState) : List Nat → Option ApiError
  | [] => none
  | seatId :: rest =>
    if (s.bookings.find? (fun b => b.date == d && b.seatId == seatId)).isSome then
      some (.alreadyBooked seatId)
    else
      match s.locks.find? (fun l => l.date == d && l.seatId == seatId) with
      | some l =>
          if l.userId ≠ user.userId ∧ now < l.lockExpiry then
            some (.lockedByOther seatId)
          else if l.lockExpiry ≤ now then
            some (.lockExpired seatId)
          else
            bookAvailabilityLoop now user d s rest
      | none => bookAvailabilityLoop now user d s rest

/-- The commit loop of `POST /api/book`: per requested seat, push a
Booking stamped with the commit time and drop every lock on that
`(date, seatId)`. -/
def commitBookings (d : Date) (uid : UserId) (bookedAt : Timestamp)
    (seatIds : List Nat) (s : ServerState) : ServerState :=
  seatIds.foldl
    (fun acc seatId =>
      { acc with
        bookings := acc.bookings ++ [{ date := d, seatId := seatId, userId := uid, bookedAt := bookedAt }]
        locks := acc.locks.filter (fun l => !(l.date == d && l.seatId == seatId)) })
    s

/-- `POST /api/book` (confirm): seat-id validation, the 5-seat cap, full
policy validation, expired-lock purge, the availability loop, then the
atomic commit loop.  Returns the booked seat ids on success. -/
def confirmBooking (clock : Clock) (user : User) (d : Date) (seatIds : List Nat)
    (s : ServerState) : Except ApiError (List Nat) × ServerState :=
  match validateSeatIds s seatIds with
  | some e => (.error e, s)
  | none =>
    if MAX_SEATS_PER_BOOKING < seatIds.length then (.error .tooManySeats, s)
    else
      match validateBookingPolicy clock s user d seatIds with
      | some e => (.error e, s)
      | none =>
        match bookAvailabilityLoop clock.ts user d
            (clearExpiredLocksForDate clock.ts d s) seatIds with
        | some e => (.error e, clearExpiredLocksForDate clock.ts d s)
        | none =>
          (.ok seatIds,
            commitBookings d user.userId clock.ts seatIds
              (clearExpiredLocksForDate clock.ts d s))

/-- The removal step of `POST /api/cancel`: drop the caller's bookings and
locks on the requested `(date, seatId)` pairs. -/
def cancelRemoval (uid : UserId) (d : Date) (seatIds : List Nat)
    (s : ServerState) : ServerState :=
  { s with
    bookings := s.bookings.filter (fun b =>
      !(b.date == d && seatIds.contains b.seatId && b.userId == uid))
    locks := s.locks.filter (fun l =>
      !(l.date == d && seatIds.contains l.seatId && l.userId == uid)) }

/-- `POST /api/cancel`: every requested seat must carry a booking owned by
the caller for the date (the first one that does not is reported);
otherwise remove the caller's bookings and locks on those pairs.  The
offender guard also uses JS truthiness (`if (invalidSeat)`), so a *first*
offending seat id of `0` is not reported and the request proceeds to the
removal step. -/
def cancelBooking (user : User) (d : Date) (seatIds : List Nat)
    (s : ServerState) : Except ApiError Unit × ServerState :=
  match validateSeatIds s seatIds with
  | some e => (.error e, s)
  | none =>
    match seatIds.find? (fun seatId =>
        (s.bookings.find? (fun b =>
          b.date == d && b.seatId == seatId && b.userId == user.userId)).isNone) with
    | some invalidSeat =>
      if invalidSeat = 0 then (.ok (), cancelRemoval user.userId d seatIds s)
      else (.error (.notOwnBooking invalidSeat), s)
    | none => (.ok (), cancelRemoval user.userId d seatIds s)

/-- `POST /api/leave`: insert a Leave only if none exists for
`(user, date)`, bump `floaterLeaveCount` only on that insertion and only
for designated-seat holders, and always purge the user's bookings for the
date.  Returns the state and the (possibly updated) user record. -/
def markLeave (user : User) (d : Date) (s : ServerState) : ServerState × User :=
  let existing := s.leaves.any (fun l => l.userId == user.userId && l.date == d)
  let s1 :=
    if existing then s
    else { s with leaves := s.leaves ++ [{ userId := user.userId, date := d, seatId := user.designatedSeatId }] }
  let u1 :=
    if existing then user
    else if user.designatedSeatId.isSome then
      { user with floaterLeaveCount := user.floaterLeaveCount + 1 }
    else user
  ({ s1 with
      bookings := s1.bookings.filter (fun b => !(b.userId == user.userId && b.date == d)) },
    u1)

/-- `PATCH /api/user/batch`: refuse the switch while the caller holds a
booking for the target date (the request's `date`, defaulting to today);
otherwise set `user.batch`.  (The source's check that `newBatch` is one of
`batch1`/`batch2` always passes for the `Batch` type.)  Returns the
outcome and the user record left behind. -/
def updateBatch (today : Date) (user : User) (newBatch : Batch) (dateOpt : Option Date)
    (s : ServerState) : Except ApiError Unit × User :=
  let targetDate := dateOpt.getD today
  if s.bookings.any (fun b => b.userId == user.userId && b.date == targetDate) then
    (.error .activeBookingForDate, user)
  else
    (.ok (), { user with batch := newBatch })

/-! ## Concrete fixtures used by the claim theorems -/

/-- A batch-1 user with no designated seat. -/
def alice : User :=
  { userId := "alice", batch := .batch1, designatedSeatId := none
    floaterLeaveCount := 0, isAdmin := false }

/-- A clock far from the booked date (date 0 is not "tomorrow"). -/
def c1Clock : Clock := { today := 10, hour := 0, ts := 0 }

/-- A clock at millisecond 10, so a lock with `lockExpiry = 5` is expired. -/
def c2Clock : Clock := { today := 10, hour := 0, ts := 10 }

/-- A clock on day 0 at 10:00 local time, before the 15:00 cutoff. -/
def c3Clock : Clock := { today := 0, hour := 10, ts := 0 }

/-- Seat 2 already booked by bob; seat 1 carries carol's lock that expires
at millisecond 5 (expired under `c2Clock`). -/
def s2cex : ServerState :=
  { initialState with
    bookings := [{ date := 0, seatId := 2, userId := "bob", bookedAt := 0 }]
    locks := [{ date := 0, seatId := 1, userId := "carol", lockExpiry := 5 }] }

/-- Seat 1 carries carol's lock that expired at millisecond 5. -/
def s4cex : ServerState :=
  { initialState with
    locks := [{ date := 0, seatId := 1, userId := "carol", lockExpiry := 5 }] }

/-! ## C1 -/

/-- C1: the claimed invariant "at most one Booking per `(date, seatId)`"
is violated by the code itself: a single `confirmBooking` call whose
`seatIds` list repeats a seat id passes every check (the availability loop
runs before any mutation) and then pushes one Booking per list entry, so
`[1, 1]` on the fresh state yields two Bookings for seat 1 on date 0. -/
theorem c1_single_confirm_double_books_a_seat :
    (confirmBooking c1Clock alice 0 [1, 1] initialState).1 = .ok [1, 1] ∧
    ((confirmBooking c1Clock alice 0 [1, 1] initialState).2.bookings.filter
      (fun b => b.date == 0 && b.seatId == 1)).length = 2 :=
  ⟨rfl, rfl⟩

/-! ## C3 -/

/-- C3: the claim (and the source's own comments "without the 3 PM rule")
say the advance-booking cutoff applies only to confirm, but `POST
/api/lock` calls `validateBookingPolicy`, which applies it: an
`acquireLocks` call for tomorrow (date 1, today 0) at local hour 10
is rejected with the advance-booking error and the state is untouched. -/
theorem c3_lock_applies_advance_rule :
    acquireLocks c3Clock alice 1 [41] initialState =
      (.error .advanceBooking, initialState) :=
  rfl

/-! ## Helper lemmas about the handlers -/

/-- `confirmBooking` has exactly three outcome shapes: an early rejection
with the state untouched, a rejection from the availability loop with only
the expired-lock purge applied, or the committed batch. -/
theorem confirm_cases (clock : Clock) (u : User) (d : Date) (seatIds : List Nat)
    (s : ServerState) :
    (∃ e, confirmBooking clock u d seatIds s = (.error e, s)) ∨
    (∃ e, confirmBooking clock u d seatIds s =
      (.error e, clearExpiredLocksForDate clock.ts d s)) ∨
    (confirmBooking clock u d seatIds s =
      (.ok seatIds,
        commitBookings d u.userId clock.ts seatIds
          (clearExpiredLocksForDate clock.ts d s)) ∧
      bookAvailabilityLoop clock.ts u d (clearExpiredLocksForDate clock.ts d s)
        seatIds = none) := by
  unfold confirmBooking
  split
  · exact .inl ⟨_, rfl⟩
  · split
    · exact .inl ⟨_, rfl⟩
    · split
      · exact .inl ⟨_, rfl⟩
      · split
        · exact .inr (.inl ⟨_, rfl⟩)
        · rename_i h
          exact .inr (.inr ⟨rfl, h⟩)

/-- Clearing a date's expired locks never drops a live lock: filtering for
live locks commutes with the purge. -/
theorem filter_live_clearExpired (now : Timestamp) (d : Date) (s : ServerState) :
    (clearExpiredLocksForDate now d s).locks.filter
        (fun l => decide (now < l.lockExpiry)) =
      s.locks.filter (fun l => decide (now < l.lockExpiry)) := by
  simp only [clearExpiredLocksForDate]
  rw [List.filter_filter]
  apply List.filter_congr
  intro l _
  by_cases h : now < l.lockExpiry <;> simp [h]

/-- If the availability loop of `POST /api/book` accepts a batch, none of
the requested seats carries a Booking for the date. -/
theorem bookAvailabilityLoop_none_not_booked (now : Timestamp) (u : User) (d : Date)
    (s : ServerState) (seatIds : List Nat)
    (h : bookAvailabilityLoop now u d s seatIds = none) :
    ∀ i ∈ seatIds, s.bookings.find? (fun b => b.date == d && b.seatId == i) = none := by
  induction seatIds with
  | nil => intro i hi; cases hi
  | cons a tl ih =>
    unfold bookAvailabilityLoop at h
    split at h
    · cases h
    · rename_i hf
      have hfa : s.bookings.find? (fun b => b.date == d && b.seatId == a) = none := by
        simpa using hf
      have htl : bookAvailabilityLoop now u d s tl = none := by
        split at h
        · split at h
          · cases h
          · split at h
            · cases h
            · exact h
        · exact h
      intro i hi
      rcases List.mem_cons.mp hi with rfl | hmem
      · exact hfa
      · exact ih htl i hmem

/-- If the availability loop of `POST /api/book` accepts a batch and the
lock store keys locks uniquely by `(date, seatId)`, then no requested seat
carries a live lock owned by another user. -/
theorem bookAvailabilityLoop_none_no_live_other (now : Timestamp) (u : User) (d : Date)
    (s : ServerState)
    (huniq : ∀ l1 ∈ s.locks, ∀ l2 ∈ s.locks,
      l1.date = l2.date → l1.seatId = l2.seatId → l1 = l2) :
    ∀ seatIds, bookAvailabilityLoop now u d s seatIds = none →
      ∀ i ∈ seatIds, ∀ l ∈ s.locks, l.date = d → l.seatId = i →
        l.userId ≠ u.userId → ¬ now < l.lockExpiry := by
  intro seatIds
  induction seatIds with
  | nil => intro _ i hi; cases hi
  | cons a tl ih =>
    intro h
    unfold bookAvailabilityLoop at h
    split at h
    · cases h
    · split at h
      · rename_i l0 hlk
        split at h
        · cases h
        · rename_i hc1
          split at h
          · cases h
          · intro i hi l hl hld hls hlu hlive
            rcases List.mem_cons.mp hi with rfl | hmem
            · have hl0mem := List.mem_of_find?_eq_some hlk
              have hl0p := List.find?_some hlk
              simp only [Bool.and_eq_true, beq_iff_eq] at hl0p
              have heq : l = l0 :=
                huniq l hl l0 hl0mem (hld.trans hl0p.1.symm) (hls.trans hl0p.2.symm)
              exact hc1 ⟨heq ▸ hlu, heq ▸ hlive⟩
            · exact ih h i hmem l hl hld hls hlu hlive
      · rename_i hlk
        intro i hi l hl hld hls hlu hlive
        rcases List.mem_cons.mp hi with rfl | hmem
        · have := List.find?_eq_none.mp hlk l hl
          simp [hld, hls] at this
        · exact ih h i hmem l hl hld hls hlu hlive

/-! ## C2 -/

/-- C2 counterexample: the claim "no Lock is removed for any seat in the
batch" on rejection is false as stated.  Seat 2 is booked by bob, so
alice's confirm of `[1, 2]` is rejected and creates no Booking — but
carol's (expired) lock on seat 1, a seat of the batch, has been physically
removed from the lock store by the purge that precedes the checks. -/
theorem c2_counterexample_expired_lock_purged_on_rejection :
    (confirmBooking c2Clock alice 0 [1, 2] s2cex).1 = .error (.alreadyBooked 2) ∧
    (confirmBooking c2Clock alice 0 [1, 2] s2cex).2.bookings = s2cex.bookings ∧
    (confirmBooking c2Clock alice 0 [1, 2] s2cex).2.locks = [] ∧
    s2cex.locks ≠ [] :=
  ⟨rfl, rfl, rfl, by decide⟩

/-- C2 (amended): `confirmBooking` is all-or-nothing up to the purge of
already-expired locks: on any rejection no Booking is created and every
*live* lock is preserved; a requested seat already carrying a Booking for
the date forces rejection; so does (under the data model's one-lock-per-
`(date, seatId)` invariant) a requested seat carrying a live lock of a
different user, and so does any policy violation. -/
theorem c2_confirm_rejection_all_or_nothing (clock : Clock) (u : User) (d : Date)
    (seatIds : List Nat) (s : ServerState) :
    (∀ e, (confirmBooking clock u d seatIds s).1 = .error e →
      (confirmBooking clock u d seatIds s).2.bookings = s.bookings ∧
      (confirmBooking clock u d seatIds s).2.locks.filter
          (fun l => decide (clock.ts < l.lockExpiry)) =
        s.locks.filter (fun l => decide (clock.ts < l.lockExpiry))) ∧
    ((∃ i ∈ seatIds, ∃ b ∈ s.bookings, b.date = d ∧ b.seatId = i) →
      ∃ e, (confirmBooking clock u d seatIds s).1 = .error e) ∧
    ((∀ l1 ∈ s.locks, ∀ l2 ∈ s.locks, l1.date = l2.date → l1.seatId = l2.seatId → l1 = l2) →
      (∃ i ∈ seatIds, ∃ l ∈ s.locks, l.date = d ∧ l.seatId = i ∧
        l.userId ≠ u.userId ∧ clock.ts < l.lockExpiry) →
      ∃ e, (confirmBooking clock u d seatIds s).1 = .error e) ∧
    (∀ e, validateBookingPolicy clock s u d seatIds = some e →
      ∃ e2, (confirmBooking clock u d seatIds s).1 = .error e2) := by
  have hpolicy : ∀ e, validateBookingPolicy clock s u d seatIds = some e →
      ∃ e2, (confirmBooking clock u d seatIds s).1 = .error e2 := by
    intro e hp
    unfold confirmBooking
    split
    · exact ⟨_, rfl⟩
    · split
      · exact ⟨_, rfl⟩
      · rw [hp]
        exact ⟨_, rfl⟩
  rcases confirm_cases clock u d seatIds s with ⟨e0, h⟩ | ⟨e0, h⟩ | ⟨h, hloop⟩
  · rw [h] at hpolicy ⊢
    exact ⟨fun _ _ => ⟨rfl, rfl⟩, fun _ => ⟨e0, rfl⟩, fun _ _ => ⟨e0, rfl⟩, hpolicy⟩
  · rw [h] at hpolicy ⊢
    exact ⟨fun _ _ => ⟨rfl, filter_live_clearExpired clock.ts d s⟩,
      fun _ => ⟨e0, rfl⟩, fun _ _ => ⟨e0, rfl⟩, hpolicy⟩
  · rw [h] at hpolicy ⊢
    refine ⟨?_, ?_, ?_, hpolicy⟩
    · intro e he
      cases he
    · rintro ⟨i, hi, b, hb, hbd, hbs⟩
      exfalso
      have hnone := bookAvailabilityLoop_none_not_booked clock.ts u d
        (clearExpiredLocksForDate clock.ts d s) seatIds hloop i hi
      have hb' : b ∈ (clearExpiredLocksForDate clock.ts d s).bookings := hb
      have := List.find?_eq_none.mp hnone b hb'
      simp [hbd, hbs] at this
    · rintro huniq ⟨i, hi, l, hl, hld, hls, hlu, hlive⟩
      exfalso
      have huniq' : ∀ l1 ∈ (clearExpiredLocksForDate clock.ts d s).locks,
          ∀ l2 ∈ (clearExpiredLocksForDate clock.ts d s).locks,
          l1.date = l2.date → l1.seatId = l2.seatId → l1 = l2 := by
        intro l1 h1 l2 h2
        exact huniq l1 (List.mem_of_mem_filter h1) l2 (List.mem_of_mem_filter h2)
      have hl' : l ∈ (clearExpiredLocksForDate clock.ts d s).locks := by
        simp only [clearExpiredLocksForDate]
        exact List.mem_filter.mpr ⟨hl, by simp [hlive]⟩
      exact bookAvailabilityLoop_none_no_live_other clock.ts u d
        (clearExpiredLocksForDate clock.ts d s) huniq' seatIds hloop
        i hi l hl' hld hls hlu hlive

/-- Seat 1 carries carol's lock that is still live at millisecond 10. -/
def s2live : ServerState :=
  { initialState with
    locks := [{ date := 0, seatId := 1, userId := "carol", lockExpiry := 50 }] }

/-- C2 witness: the amended theorem applied at concrete inputs: the
rejected `[1, 2]` batch leaves the booking list untouched and seat 2 being
booked by bob forces rejection; carol's live lock on seat 1 forces
rejection; a weekend date (5) forces rejection via the policy. -/
theorem c2_confirm_rejection_all_or_nothing_witness :
    (confirmBooking c2Clock alice 0 [1, 2] s2cex).2.bookings = s2cex.bookings ∧
    (∃ e, (confirmBooking c2Clock alice 0 [1, 2] s2cex).1 = .error e) ∧
    (∃ e, (confirmBooking c2Clock alice 0 [1] s2live).1 = .error e) ∧
    (∃ e2, (confirmBooking c2Clock alice 5 [1] s2cex).1 = .error e2) := by
  have h := c2_confirm_rejection_all_or_nothing c2Clock alice 0 [1, 2] s2cex
  have hlk := c2_confirm_rejection_all_or_nothing c2Clock alice 0 [1] s2live
  have hpol := c2_confirm_rejection_all_or_nothing c2Clock alice 5 [1] s2cex
  refine ⟨(h.1 (.alreadyBooked 2) rfl).1, h.2.1 ?_, ?_, ?_⟩
  · exact ⟨2, by decide,
      ⟨{ date := 0, seatId := 2, userId := "bob", bookedAt := 0 }, by decide, rfl, rfl⟩⟩
  · refine hlk.2.2.1 (by decide) ?_
    exact ⟨1, by decide,
      ⟨{ date := 0, seatId := 1, userId := "carol", lockExpiry := 50 }, by decide,
        rfl, rfl, by decide, by decide⟩⟩
  · exact hpol.2.2.2 .weekendOrHoliday rfl

/-- Purging a date's expired locks yields the same state whether or not an
already-expired lock for that date sits in the store. -/
theorem clearExpired_drop_expired (now : Timestamp) (d : Date) (s : ServerState)
    (pre post : List Lock) (l : Lock)
    (hs : s.locks = pre ++ l :: post) (hd : l.date = d) (hexp : l.lockExpiry ≤ now) :
    clearExpiredLocksForDate now d s =
      clearExpiredLocksForDate now d { s with locks := pre ++ post } := by
  have hlfalse : (decide (now < l.lockExpiry)) = false :=
    decide_eq_false (Nat.not_lt.mpr hexp)
  have hp : (!(l.date == d) || decide (now < l.lockExpiry)) = false := by
    simp [hd, hlfalse]
  simp [clearExpiredLocksForDate, hs, List.filter_append, List.filter_cons, hp]

/-- `confirmBooking` is insensitive to an expired lock for the requested
date: outcome, resulting bookings, and resulting live locks are those of
the state with the expired lock deleted. -/
theorem confirm_unaffected_by_expired_lock (clock : Clock) (u : User) (d : Date)
    (seatIds : List Nat) (s : ServerState) (pre post : List Lock) (l : Lock)
    (hs : s.locks = pre ++ l :: post) (hd : l.date = d)
    (hexp : l.lockExpiry ≤ clock.ts) :
    (confirmBooking clock u d seatIds s).1 =
      (confirmBooking clock u d seatIds { s with locks := pre ++ post }).1 ∧
    (confirmBooking clock u d seatIds s).2.bookings =
      (confirmBooking clock u d seatIds { s with locks := pre ++ post }).2.bookings ∧
    (confirmBooking clock u d seatIds s).2.locks.filter
        (fun x => decide (clock.ts < x.lockExpiry)) =
      (confirmBooking clock u d seatIds { s with locks := pre ++ post }).2.locks.filter
        (fun x => decide (clock.ts < x.lockExpiry)) := by
  have hlfalse : (decide (clock.ts < l.lockExpiry)) = false :=
    decide_eq_false (Nat.not_lt.mpr hexp)
  have hfl : s.locks.filter (fun x => decide (clock.ts < x.lockExpiry)) =
      (pre ++ post).filter (fun x => decide (clock.ts < x.lockExpiry)) := by
    simp [hs, List.filter_append, List.filter_cons, hlfalse]
  have h1 : validateSeatIds { s with locks := pre ++ post } seatIds =
      validateSeatIds s seatIds := rfl
  have h2 : validateBookingPolicy clock { s with locks := pre ++ post } u d seatIds =
      validateBookingPolicy clock s u d seatIds := rfl
  have h3 := clearExpired_drop_expired clock.ts d s pre post l hs hd hexp
  unfold confirmBooking
  rw [h1, h2, h3]
  split
  · exact ⟨rfl, rfl, hfl⟩
  · split
    · exact ⟨rfl, rfl, hfl⟩
    · split
      · exact ⟨rfl, rfl, hfl⟩
      · split
        · exact ⟨rfl, rfl, rfl⟩
        · exact ⟨rfl, rfl, rfl⟩

/-- `acquireLocks` is insensitive to an expired lock for the requested
date: its outcome is that of the state with the expired lock deleted. -/
theorem acquire_unaffected_by_expired_lock (clock : Clock) (u : User) (d : Date)
    (seatIds : List Nat) (s : ServerState) (pre post : List Lock) (l : Lock)
    (hs : s.locks = pre ++ l :: post) (hd : l.date = d)
    (hexp : l.lockExpiry ≤ clock.ts) :
    (acquireLocks clock u d seatIds s).1 =
      (acquireLocks clock u d seatIds { s with locks := pre ++ post }).1 := by
  have h1 : validateSeatIds { s with locks := pre ++ post } seatIds =
      validateSeatIds s seatIds := rfl
  have h2 : validateBookingPolicy clock { s with locks := pre ++ post } u d seatIds =
      validateBookingPolicy clock s u d seatIds := rfl
  have h3 := clearExpired_drop_expired clock.ts d s pre post l hs hd hexp
  have h4 : isHoliday { s with locks := pre ++ post } d = isHoliday s d := rfl
  unfold acquireLocks
  rw [h1, h2, h3, h4]
  split
  · rfl
  · split
    · rfl
    · split
      · rfl
      · split
        · rfl
        · rfl

/-! ## C4 -/

/-- C4 counterexample: seat 1 carries only carol's lock, already expired
at the call's time (expiry 5 ≤ now 10), yet alice's `confirmBooking` for
seat 1 is *not* rejected: the batch commits and the expired lock is gone. -/
theorem c4_counterexample_expired_lock_commits :
    s4cex.locks = [{ date := 0, seatId := 1, userId := "carol", lockExpiry := 5 }] ∧
    (5 : Nat) ≤ c2Clock.ts ∧
    (confirmBooking c2Clock alice 0 [1] s4cex).1 = .ok [1] ∧
    (confirmBooking c2Clock alice 0 [1] s4cex).2.bookings =
      [{ date := 0, seatId := 1, userId := "alice", bookedAt := 10 }] ∧
    (confirmBooking c2Clock alice 0 [1] s4cex).2.locks = [] :=
  ⟨rfl, by decide, rfl, rfl, rfl⟩

/-- C4 (amended): an expired lock on a requested `(date, seatId)` does not
cause `confirmBooking` to reject; it is purged, and the call's outcome,
resulting bookings and resulting live locks are exactly those of the state
without that lock (the source's expired-lock rejection branch is
unreachable because the purge precedes it). -/
theorem c4_expired_lock_purged_not_rejected (clock : Clock) (u : User) (d : Date)
    (seatIds : List Nat) (s : ServerState) (pre post : List Lock) (l : Lock)
    (hs : s.locks = pre ++ l :: post) (hd : l.date = d)
    (hexp : l.lockExpiry ≤ clock.ts) :
    (confirmBooking clock u d seatIds s).1 =
      (confirmBooking clock u d seatIds { s with locks := pre ++ post }).1 ∧
    (confirmBooking clock u d seatIds s).2.bookings =
      (confirmBooking clock u d seatIds { s with locks := pre ++ post }).2.bookings ∧
    (confirmBooking clock u d seatIds s).2.locks.filter
        (fun x => decide (clock.ts < x.lockExpiry)) =
      (confirmBooking clock u d seatIds { s with locks := pre ++ post }).2.locks.filter
        (fun x => decide (clock.ts < x.lockExpiry)) :=
  confirm_unaffected_by_expired_lock clock u d seatIds s pre post l hs hd hexp

/-- C4 witness: the amended theorem at the counterexample input: deleting
carol's expired lock changes nothing about alice's confirm outcome. -/
theorem c4_expired_lock_purged_not_rejected_witness :
    (confirmBooking c2Clock alice 0 [1] s4cex).1 =
      (confirmBooking c2Clock alice 0 [1] { s4cex with locks := [] ++ [] }).1 :=
  (c4_expired_lock_purged_not_rejected c2Clock alice 0 [1] s4cex [] []
    { date := 0, seatId := 1, userId := "carol", lockExpiry := 5 }
    rfl rfl (by decide)).1

/-! ## C5 -/

/-- C5: an expired lock is never observable.  The projector reports a seat
as locked only when a live lock for the date backs it, and an expired lock
on the requested date changes the outcome of neither `acquireLocks` nor
`confirmBooking` (both behave as if it were deleted). -/
theorem c5_expired_locks_inert (clock : Clock) (u : User) (d : Date)
    (seatIds : List Nat) (s : ServerState) (pre post : List Lock) (l : Lock)
    (hs : s.locks = pre ++ l :: post) (hd : l.date = d)
    (hexp : l.lockExpiry ≤ clock.ts) :
    (∀ v ∈ (getSeatStateForDate clock d s).2, v.status = .locked →
      ∃ lk ∈ s.locks, lk.date = d ∧ lk.seatId = v.seatId ∧ clock.ts < lk.lockExpiry) ∧
    (acquireLocks clock u d seatIds s).1 =
      (acquireLocks clock u d seatIds { s with locks := pre ++ post }).1 ∧
    (confirmBooking clock u d seatIds s).1 =
      (confirmBooking clock u d seatIds { s with locks := pre ++ post }).1 := by
  refine ⟨?_, acquire_unaffected_by_expired_lock clock u d seatIds s pre post l hs hd hexp,
    (confirm_unaffected_by_expired_lock clock u d seatIds s pre post l hs hd hexp).1⟩
  intro v hv hst
  simp only [getSeatStateForDate, List.mem_map] at hv
  obtain ⟨p, hp, hveq⟩ := hv
  subst hveq
  simp only [projectSeat] at hst ⊢
  split at hst
  · simp at hst
  · rename_i lk hbk hlk
    refine ⟨lk, ?_, ?_⟩
    · exact List.mem_of_mem_filter (List.mem_of_find?_eq_some hlk)
    · have hpred := List.find?_some hlk
      simp only [Bool.and_eq_true, beq_iff_eq, decide_eq_true_eq] at hpred
      exact ⟨hpred.1.1, hpred.1.2.symm ▸ rfl, hpred.2⟩
  · simp at hst

/-- C5 witness: at the concrete expired-lock state, the projector does not
report seat 1 as locked, and deleting the expired lock leaves the confirm
outcome unchanged. -/
theorem c5_expired_locks_inert_witness :
    (∀ v ∈ (getSeatStateForDate c2Clock 0 s4cex).2, v.status = .locked →
      ∃ lk ∈ s4cex.locks, lk.date = 0 ∧ lk.seatId = v.seatId ∧ c2Clock.ts < lk.lockExpiry) ∧
    (confirmBooking c2Clock alice 0 [1] s4cex).1 =
      (confirmBooking c2Clock alice 0 [1] { s4cex with locks := [] ++ [] }).1 := by
  have h := c5_expired_locks_inert c2Clock alice 0 [1] s4cex [] []
    { date := 0, seatId := 1, userId := "carol", lockExpiry := 5 } rfl rfl (by decide)
  exact ⟨h.1, h.2.2⟩

/-! ## C6 -/

/-- C6: for a designated seat with an owner, on a bookable date (weekday,
non-holiday, caller not on leave, advance gate passed): if the owner is on
leave the policy passes for any caller; if not, a non-owner is rejected
with the "not your designated seat" error for that seat, and the owner is
accepted exactly when the owner's batch is scheduled on the date. -/
theorem c6_designated_seat_ownership (clock : Clock) (s : ServerState) (caller : User)
    (d : Date) (seatS : Nat) (sd : SeatDef) (ownerU : UserId)
    (hw : isWeekend d = false) (hh : isHoliday s d = false)
    (hcl : isUserOnLeave s caller.userId d = false)
    (ht : d = clock.today + 1 → 15 ≤ clock.hour)
    (hdef : getSeatDefinition s seatS = some sd)
    (hty : sd.type = .designated) (hown : sd.assignedTo = some ownerU) :
    (isUserOnLeave s ownerU d = true →
      validateBookingPolicy clock s caller d [seatS] = none) ∧
    (isUserOnLeave s ownerU d = false → ownerU ≠ caller.userId →
      validateBookingPolicy clock s caller d [seatS] =
        some (.notYourDesignatedSeat seatS)) ∧
    (isUserOnLeave s ownerU d = false → ownerU = caller.userId →
      validateBookingPolicy clock s caller d [seatS] =
        (if isBatchScheduledOnDate s.batchSchedule caller.batch d then none
         else some .notBatchDay)) := by
  have hdef' : getSeatDefinitionIn s.seatDefinitions seatS = some sd := hdef
  have hgate : (d == clock.today + 1 && decide (clock.hour < 15)) = false := by
    by_cases hdt : d = clock.today + 1
    · have := ht hdt
      simp [hdt, Nat.not_lt.mpr this]
    · simp [hdt]
  have hloop : ∀ bd : Bool, seatOwnershipLoop s.seatDefinitions s.leaves caller d bd [seatS] =
      (if isUserOnLeaveIn s.leaves ownerU d then none
       else if ownerU ≠ caller.userId then some (.notYourDesignatedSeat seatS)
       else if bd then none else some .notBatchDay) := by
    intro bd
    have hnil : ∀ b : Bool, seatOwnershipLoop s.seatDefinitions s.leaves caller d b [] = none :=
      fun _ => rfl
    unfold seatOwnershipLoop
    rw [hdef']
    by_cases h1 : isUserOnLeaveIn s.leaves ownerU d
    · simp [hty, hown, hnil, h1]
    · by_cases h2 : ownerU = caller.userId
      · subst h2
        by_cases h3 : bd <;> simp [hty, hown, hnil, h1, h3]
      · simp [hty, hown, hnil, h1, h2]
  have hpol : validateBookingPolicy clock s caller d [seatS] =
      seatOwnershipLoop s.seatDefinitions s.leaves caller d
        (isBatchScheduledOnDate s.batchSchedule caller.batch d) [seatS] := by
    unfold validateBookingPolicy
    simp [hw, hh, hcl, hgate]
  refine ⟨?_, ?_, ?_⟩
  · intro hol
    have hol' : isUserOnLeaveIn s.leaves ownerU d = true := hol
    rw [hpol, hloop]
    simp [hol']
  · intro hol hne
    have hol' : isUserOnLeaveIn s.leaves ownerU d = false := hol
    rw [hpol, hloop]
    simp [hol', hne]
  · intro hol heq
    subst heq
    have hol' : isUserOnLeaveIn s.leaves caller.userId d = false := hol
    rw [hpol, hloop]
    simp [hol']

/-- A one-seat catalog whose seat 3 is designated and owned by bob. -/
def s6 : ServerState :=
  { initialState with
    seatDefinitions := [{ seatId := 3, type := .designated, assignedTo := some "bob" }] }

/-- C6 witness: bob's designated seat, bob not on leave: alice is rejected
with the "not your designated seat" error for seat 3. -/
theorem c6_designated_seat_ownership_witness :
    validateBookingPolicy c1Clock s6 alice 0 [3] = some (.notYourDesignatedSeat 3) := by
  have h := c6_designated_seat_ownership c1Clock s6 alice 0 3
    { seatId := 3, type := .designated, assignedTo := some "bob" } "bob"
    rfl rfl rfl (fun hdt => absurd hdt (by decide)) rfl rfl rfl
  exact h.2.1 rfl (by decide)

/-! ## C7 -/

/-- Number of Leave records for `(uid, d)` in the ledger. -/
def countLeavesFor (uid : UserId) (d : Date) (s : ServerState) : Nat :=
  (s.leaves.filter (fun l => l.userId == uid && l.date == d)).length

/-- C7: `markLeave` is idempotent as a state transformer; starting from a
ledger with at most one Leave for `(user, date)` the call leaves exactly
one; the user's bookings for the date are purged; and `floaterLeaveCount`
grows by one exactly on the call that creates the Leave record and only
for designated-seat holders. -/
theorem c7_markLeave_idempotent (u : User) (d : Date) (s : ServerState)
    (hcount : countLeavesFor u.userId d s ≤ 1) :
    markLeave (markLeave u d s).2 d (markLeave u d s).1 = markLeave u d s ∧
    countLeavesFor u.userId d (markLeave u d s).1 = 1 ∧
    (markLeave u d s).1.bookings.filter
      (fun b => b.userId == u.userId && b.date == d) = [] ∧
    (isUserOnLeave s u.userId d = false →
      (markLeave u d s).2.floaterLeaveCount =
        u.floaterLeaveCount + (if u.designatedSeatId.isSome then 1 else 0)) ∧
    (isUserOnLeave s u.userId d = true → (markLeave u d s).2 = u) := by
  have hfilt2 : ∀ bs : List Booking,
      (bs.filter (fun b => !(b.userId == u.userId && b.date == d))).filter
        (fun b => !(b.userId == u.userId && b.date == d)) =
      bs.filter (fun b => !(b.userId == u.userId && b.date == d)) := by
    intro bs
    rw [List.filter_filter]
    apply List.filter_congr
    intro b _
    cases b.userId == u.userId <;> cases b.date == d <;> simp
  have hkill : ∀ bs : List Booking,
      (bs.filter (fun b => !(b.userId == u.userId && b.date == d))).filter
        (fun b => b.userId == u.userId && b.date == d) = [] := by
    intro bs
    rw [List.filter_filter]
    have : ∀ b : Booking,
        ((b.userId == u.userId && b.date == d) && !(b.userId == u.userId && b.date == d)) =
          false := by
      intro b
      cases b.userId == u.userId <;> cases b.date == d <;> simp
    simp [this]
  by_cases hex : s.leaves.any (fun l => l.userId == u.userId && l.date == d)
  · have h1 : markLeave u d s =
        ({ s with bookings := s.bookings.filter fun b => !(b.userId == u.userId && b.date == d) }, u) := by
      simp [markLeave, hex]
    rw [h1]
    refine ⟨?_, ?_, hkill s.bookings, ?_, fun _ => rfl⟩
    · simp [markLeave, hex, hfilt2 s.bookings]
    · obtain ⟨x, hx, hpx⟩ := List.any_eq_true.mp hex
      have hmem : x ∈ s.leaves.filter (fun l => l.userId == u.userId && l.date == d) :=
        List.mem_filter.mpr ⟨hx, hpx⟩
      have hpos := List.length_pos_of_mem hmem
      have : countLeavesFor u.userId d s =
          (s.leaves.filter (fun l => l.userId == u.userId && l.date == d)).length := rfl
      simp only [countLeavesFor] at hcount ⊢
      omega
    · intro hfalse
      have : s.leaves.any (fun l => l.userId == u.userId && l.date == d) = false := hfalse
      rw [hex] at this
      cases this
  · have hex' : s.leaves.any (fun l => l.userId == u.userId && l.date == d) = false := by
      simpa using hex
    have hnew : ((⟨u.userId, d, u.designatedSeatId⟩ : Leave).userId == u.userId &&
        (⟨u.userId, d, u.designatedSeatId⟩ : Leave).date == d) = true := by simp
    have hold : s.leaves.filter (fun l => l.userId == u.userId && l.date == d) = [] := by
      rw [List.filter_eq_nil_iff]
      intro a ha
      have := List.any_eq_false.mp hex' a ha
      simpa using this
    by_cases hdsg : u.designatedSeatId.isSome
    · have h1 : markLeave u d s =
          ({ s with
              leaves := s.leaves ++ [⟨u.userId, d, u.designatedSeatId⟩],
              bookings := s.bookings.filter fun b => !(b.userId == u.userId && b.date == d) },
            { u with floaterLeaveCount := u.floaterLeaveCount + 1 }) := by
        simp [markLeave, hex', hdsg]
      rw [h1]
      refine ⟨?_, ?_, hkill s.bookings, fun _ => by simp [hdsg], ?_⟩
      · simp [markLeave, List.any_append, hex', hnew, hfilt2 s.bookings]
      · simp [countLeavesFor, List.filter_append, hold, hnew]
      · intro htrue
        have : s.leaves.any (fun l => l.userId == u.userId && l.date == d) = true := htrue
        rw [hex'] at this
        cases this
    · have h1 : markLeave u d s =
          ({ s with
              leaves := s.leaves ++ [⟨u.userId, d, u.designatedSeatId⟩],
              bookings := s.bookings.filter fun b => !(b.userId == u.userId && b.date == d) }, u) := by
        simp [markLeave, hex', hdsg]
      rw [h1]
      refine ⟨?_, ?_, hkill s.bookings, fun _ => by simp [hdsg], fun _ => rfl⟩
      · simp [markLeave, List.any_append, hex', hnew, hfilt2 s.bookings]
      · simp [countLeavesFor, List.filter_append, hold, hnew]

/-- A designated-seat holder used to exercise `markLeave`. -/
def bobUser : User :=
  { userId := "bob", batch := .batch2, designatedSeatId := some 3
    floaterLeaveCount := 0, isAdmin := false }

/-- C7 witness: on the fresh state, marking bob's leave twice for date 0
equals marking it once, and exactly one Leave record results. -/
theorem c7_markLeave_idempotent_witness :
    markLeave (markLeave bobUser 0 initialState).2 0 (markLeave bobUser 0 initialState).1 =
      markLeave bobUser 0 initialState ∧
    countLeavesFor "bob" 0 (markLeave bobUser 0 initialState).1 = 1 := by
  have h := c7_markLeave_idempotent bobUser 0 initialState (by decide)
  exact ⟨h.1, h.2.1⟩

/-! ## C8 -/

/-- Every date lies inside its own two-week cycle. -/
theorem date_in_own_cycle (d : Date) :
    (getCycleBounds d).1 ≤ d ∧ d ≤ (getCycleBounds d).2 := by
  have h : ∀ n : Nat,
      7 * ((if (n / 7 + 1) % 2 = 1 then n / 7 + 1 else n / 7 + 1 - 1) - 1) ≤ n ∧
      n ≤ 7 * ((if (n / 7 + 1) % 2 = 1 then n / 7 + 1 else n / 7 + 1 - 1) + 1) - 1 := by
    intro n
    constructor <;> (split <;> omega)
  exact h d

/-- C8: every two dates in the same odd/even ISO-week pair resolve to the
identical two-week cycle `[start, end]`, and a booking on the first date
is counted (its date belongs to the attended-dates set) when the quota is
queried from the second date. -/
theorem c8_cycle_consistency (d1 d2 : Date) (s : ServerState) (uid : UserId) (b : Booking)
    (hpair : (isoWeekOf d1 - 1) / 2 = (isoWeekOf d2 - 1) / 2)
    (hb : b ∈ s.bookings) (hu : b.userId = uid) (hd : b.date = d1) :
    getCycleBounds d1 = getCycleBounds d2 ∧
    d1 ∈ attendanceDatesForCycle s uid d2 ∧
    1 ≤ getAttendanceCountForCycle s uid d2 := by
  have key : ∀ d : Date, (if isoWeekOf d % 2 = 1 then isoWeekOf d else isoWeekOf d - 1) =
      2 * ((isoWeekOf d - 1) / 2) + 1 := by
    intro d
    unfold isoWeekOf
    split <;> omega
  have hbounds : getCycleBounds d1 = getCycleBounds d2 := by
    simp only [getCycleBounds]
    rw [key d1, key d2, hpair]
  have hrange : (getCycleBounds d2).1 ≤ d1 ∧ d1 ≤ (getCycleBounds d2).2 :=
    hbounds ▸ date_in_own_cycle d1
  have hmem : d1 ∈ attendanceDatesForCycle s uid d2 := by
    unfold attendanceDatesForCycle
    rw [List.mem_dedup, List.mem_map]
    refine ⟨b, List.mem_filter.mpr ⟨hb, ?_⟩, hd⟩
    simp [hu, hd, hrange.1, hrange.2]
  exact ⟨hbounds, hmem, List.length_pos_of_mem hmem⟩

/-- State with one booking by alice on date 0 (Monday, ISO week 1). -/
def s8 : ServerState :=
  { initialState with bookings := [{ date := 0, seatId := 1, userId := "alice", bookedAt := 0 }] }

/-- C8 witness: dates 0 (week 1) and 13 (week 2) share the cycle, and
alice's booking on date 0 is counted when querying date 13. -/
theorem c8_cycle_consistency_witness :
    getCycleBounds 0 = getCycleBounds 13 ∧
    1 ≤ getAttendanceCountForCycle s8 "alice" 13 := by
  have h := c8_cycle_consistency 0 13 s8 "alice"
    { date := 0, seatId := 1, userId := "alice", bookedAt := 0 }
    (by decide) (by decide) rfl rfl
  exact ⟨h.1, h.2.2⟩

/-! ## C9 -/

/-- A successful `find?` returns an element satisfying the predicate that
is preceded only by elements failing it. -/
theorem find?_eq_some_split {α : Type} (p : α → Bool) :
    ∀ (l : List α) (a : α), l.find? p = some a →
      p a = true ∧ ∃ l1 l2, l = l1 ++ a :: l2 ∧ ∀ x ∈ l1, p x = false
  | [], a, h => by cases h
  | x :: xs, a, h => by
    by_cases hx : p x
    · rw [List.find?_cons_of_pos xs hx] at h
      cases h
      exact ⟨hx, [], xs, rfl, by intro y hy; cases hy⟩
    · rw [List.find?_cons_of_neg xs hx] at h
      obtain ⟨hpa, l1, l2, heq, hall⟩ := find?_eq_some_split p xs a h
      refine ⟨hpa, x :: l1, l2, by simp [heq], ?_⟩
      intro y hy
      rcases List.mem_cons.mp hy with rfl | hmem
      · simpa using hx
      · exact hall y hmem

/-- `validateSeatIds` only ever reports an empty list or an unknown seat. -/
theorem validateSeatIds_error_shape (s : ServerState) (seatIds : List Nat) (e : ApiError)
    (h : validateSeatIds s seatIds = some e) :
    e = .emptySeatIds ∨ ∃ i, e = .unknownSeat i := by
  unfold validateSeatIds at h
  split at h
  · cases h
    exact .inl rfl
  · split at h
    · split at h
      · cases h
      · cases h
        exact .inr ⟨_, rfl⟩
    · cases h

/-- Membership description of the cancel removal step. -/
theorem cancelRemoval_mem (uid : UserId) (d : Date) (seatIds : List Nat)
    (s : ServerState) :
    (∀ b : Booking, b ∈ (cancelRemoval uid d seatIds s).bookings ↔
      b ∈ s.bookings ∧ ¬(b.date = d ∧ b.seatId ∈ seatIds ∧ b.userId = uid)) ∧
    (∀ l : Lock, l ∈ (cancelRemoval uid d seatIds s).locks ↔
      l ∈ s.locks ∧ ¬(l.date = d ∧ l.seatId ∈ seatIds ∧ l.userId = uid)) := by
  constructor
  · intro b
    simp only [cancelRemoval]
    rw [List.mem_filter]
    simp [List.elem_iff]
    tauto
  · intro l
    simp only [cancelRemoval]
    rw [List.mem_filter]
    simp [List.elem_iff]
    tauto

/-- State in which alice's booking of seat 1 on date 0 is the only one. -/
def s9 : ServerState :=
  { initialState with bookings := [{ date := 0, seatId := 1, userId := "alice", bookedAt := 0 }] }

/-- C9 counterexample: seat 0 is not in the catalog and carries no booking
owned by alice, so the claim demands rejection of `cancel(0, [0, 1])` with
every Booking left untouched; but both truthiness guards of the source
pass over a first offender of `0`, the call reports success, and alice's
seat-1 booking is removed. -/
theorem c9_counterexample_zero_seat_cancel :
    (∀ b ∈ s9.bookings, ¬(b.date = 0 ∧ b.seatId = 0 ∧ b.userId = "alice")) ∧
    (cancelBooking alice 0 [0, 1] s9).1 = .ok () ∧
    (cancelBooking alice 0 [0, 1] s9).2.bookings = [] ∧
    s9.bookings ≠ [] :=
  ⟨by decide, rfl, rfl, by decide⟩

/-- C9 (amended): `cancelBooking` rejects without touching the state; a
rejection naming a seat means that seat is the first requested one without
a caller-owned booking for the date; a request containing such a seat
(with well-formed seat ids, *none of them 0*) is always rejected — a first
offending seat id of 0 instead slips through the truthiness guard and the
request succeeds; on success exactly the caller's bookings and locks on
the requested `(date, seatId)` pairs are removed. -/
theorem c9_cancel_first_offender_or_exact_removal (u : User) (d : Date)
    (seatIds : List Nat) (s : ServerState) :
    (∀ e, (cancelBooking u d seatIds s).1 = .error e →
      (cancelBooking u d seatIds s).2 = s) ∧
    ((cancelBooking u d seatIds s).1 = .ok () →
      (∀ b : Booking, b ∈ (cancelBooking u d seatIds s).2.bookings ↔
        b ∈ s.bookings ∧ ¬(b.date = d ∧ b.seatId ∈ seatIds ∧ b.userId = u.userId)) ∧
      (∀ l : Lock, l ∈ (cancelBooking u d seatIds s).2.locks ↔
        l ∈ s.locks ∧ ¬(l.date = d ∧ l.seatId ∈ seatIds ∧ l.userId = u.userId))) ∧
    (∀ i, (cancelBooking u d seatIds s).1 = .error (.notOwnBooking i) →
      i ∈ seatIds ∧
      (∀ b ∈ s.bookings, ¬(b.date = d ∧ b.seatId = i ∧ b.userId = u.userId)) ∧
      ∃ l1 l2, seatIds = l1 ++ i :: l2 ∧
        ∀ j ∈ l1, ∃ b ∈ s.bookings, b.date = d ∧ b.seatId = j ∧ b.userId = u.userId) ∧
    ((seatIds.isEmpty = false ∧ 0 ∉ seatIds ∧
      (∀ i ∈ seatIds, (getSeatDefinition s i).isSome) ∧
      (∃ i ∈ seatIds, ∀ b ∈ s.bookings, ¬(b.date = d ∧ b.seatId = i ∧ b.userId = u.userId))) →
      ∃ i, (cancelBooking u d seatIds s).1 = .error (.notOwnBooking i)) := by
  cases hv : validateSeatIds s seatIds with
  | some e =>
    have hres : cancelBooking u d seatIds s = (.error e, s) := by
      unfold cancelBooking
      rw [hv]
    rw [hres]
    refine ⟨fun _ _ => rfl, ?_, ?_, ?_⟩
    · intro h
      simp at h
    · intro i hi
      rcases validateSeatIds_error_shape s seatIds e hv with rfl | ⟨j, rfl⟩
      · simp at hi
      · simp at hi
    · rintro ⟨hne, -, hall, -⟩
      exfalso
      have : validateSeatIds s seatIds = none := by
        unfold validateSeatIds
        rw [if_neg (by simp [hne])]
        have : seatIds.find? (fun id => (getSeatDefinition s id).isNone) = none := by
          rw [List.find?_eq_none]
          intro a ha
          simp [Option.isNone_iff_eq_none]
          exact Option.isSome_iff_ne_none.mp (hall a ha)
        rw [this]
      rw [hv] at this
      cases this
  | none =>
    cases hfind : seatIds.find? (fun seatId =>
        (s.bookings.find? (fun b =>
          b.date == d && b.seatId == seatId && b.userId == u.userId)).isNone) with
    | some i0 =>
      by_cases hz0 : i0 = 0
      · subst hz0
        have hres : cancelBooking u d seatIds s =
            (.ok (), cancelRemoval u.userId d seatIds s) := by
          unfold cancelBooking
          rw [hv, hfind]
          rfl
        rw [hres]
        refine ⟨?_, ?_, ?_, ?_⟩
        · intro e h
          simp at h
        · intro _
          exact cancelRemoval_mem u.userId d seatIds s
        · intro i h
          simp at h
        · rintro ⟨-, hz, -, -⟩
          exact absurd (List.mem_of_find?_eq_some hfind) hz
      · have hres : cancelBooking u d seatIds s = (.error (.notOwnBooking i0), s) := by
          unfold cancelBooking
          rw [hv, hfind]
          show (if i0 = 0 then ((Except.ok () : Except ApiError Unit), cancelRemoval u.userId d seatIds s)
            else (Except.error (ApiError.notOwnBooking i0), s)) =
            (Except.error (ApiError.notOwnBooking i0), s)
          rw [if_neg hz0]
        rw [hres]
        obtain ⟨hp0, l1, l2, hsplit, hprev⟩ := find?_eq_some_split _ seatIds i0 hfind
        have hnone : s.bookings.find? (fun b =>
            b.date == d && b.seatId == i0 && b.userId == u.userId) = none := by
          simpa [Option.isNone_iff_eq_none] using hp0
        refine ⟨fun _ _ => rfl, ?_, ?_, fun _ => ⟨i0, rfl⟩⟩
        · intro h
          simp at h
        intro i hi
        have hi' : (Except.error (ApiError.notOwnBooking i0) : Except ApiError Unit) =
            .error (.notOwnBooking i) := hi
        have hii : i0 = i := by
          injection hi' with h1
          injection h1
        subst hii
        refine ⟨by rw [hsplit]; simp, ?_, l1, l2, hsplit, ?_⟩
        · intro b hb
          have := List.find?_eq_none.mp hnone b hb
          simp only [Bool.and_eq_true, beq_iff_eq] at this
          rintro ⟨h1, h2, h3⟩
          exact this ⟨⟨h1, h2⟩, h3⟩
        · intro j hj
          have hps := hprev j hj
          have : (s.bookings.find? (fun b =>
              b.date == d && b.seatId == j && b.userId == u.userId)).isSome := by
            simp only [Option.isNone_iff_eq_none] at hps
            simpa [Option.isSome_iff_ne_none] using hps
          obtain ⟨b, hbm, hbp⟩ := List.find?_isSome.mp this
          simp only [Bool.and_eq_true, beq_iff_eq] at hbp
          exact ⟨b, hbm, hbp.1.1, hbp.1.2, hbp.2⟩
    | none =>
      have hres : cancelBooking u d seatIds s =
          (.ok (), cancelRemoval u.userId d seatIds s) := by
        unfold cancelBooking
        rw [hv, hfind]
      rw [hres]
      refine ⟨?_, ?_, ?_, ?_⟩
      · intro e h
        simp at h
      · intro _
        exact cancelRemoval_mem u.userId d seatIds s
      · intro i h
        simp at h
      · rintro ⟨-, -, -, i, hi, hno⟩
        exfalso
        have hx := List.find?_eq_none.mp hfind i hi
        have hsome : (s.bookings.find? (fun b =>
            b.date == d && b.seatId == i && b.userId == u.userId)).isSome := by
          cases hcase : s.bookings.find? (fun b =>
              b.date == d && b.seatId == i && b.userId == u.userId) with
          | none => exact absurd (by simp [hcase]) hx
          | some b => simp
        obtain ⟨b, hbm, hbp⟩ := List.find?_isSome.mp hsome
        simp only [Bool.and_eq_true, beq_iff_eq] at hbp
        exact hno b hbm ⟨hbp.1.1, hbp.1.2, hbp.2⟩

/-- C9 witness: alice cancels her own seat 1 on date 0: success, and the
booking is gone afterwards; cancelling unowned nonzero seat 2 instead is
rejected naming a seat. -/
theorem c9_cancel_witness :
    ((cancelBooking alice 0 [1] s9).1 = .ok () ∧
      ({ date := 0, seatId := 1, userId := "alice", bookedAt := 0 } : Booking) ∉
        (cancelBooking alice 0 [1] s9).2.bookings) ∧
    (∃ i, (cancelBooking alice 0 [2] s9).1 = .error (.notOwnBooking i)) := by
  have h := (c9_cancel_first_offender_or_exact_removal alice 0 [1] s9).2.1 rfl
  have h4 := (c9_cancel_first_offender_or_exact_removal alice 0 [2] s9).2.2.2
  refine ⟨⟨rfl, ?_⟩, h4 ⟨rfl, by decide, by decide, 2, by decide, by decide⟩⟩
  intro hmem
  have h2 := (h.1 _).mp hmem
  exact h2.2 ⟨rfl, by decide, rfl⟩

/-! ## C10 -/

/-- C10: the batch switch is refused with the caller's record unchanged
when the caller holds any booking for the target date (the request's date,
defaulting to today); otherwise `user.batch` is set to the request. -/
theorem c10_batch_switch_guard (today : Date) (u : User) (newBatch : Batch)
    (dateOpt : Option Date) (s : ServerState) :
    (s.bookings.any (fun b => b.userId == u.userId && b.date == dateOpt.getD today) = true →
      updateBatch today u newBatch dateOpt s = (.error .activeBookingForDate, u)) ∧
    (s.bookings.any (fun b => b.userId == u.userId && b.date == dateOpt.getD today) = false →
      updateBatch today u newBatch dateOpt s = (.ok (), { u with batch := newBatch })) := by
  constructor <;> intro h <;> simp [updateBatch, h]

/-- C10 witness: with alice's booking on date 0, switching batch "today"
(date 0) is refused leaving alice unchanged, while on booking-free date 5
it succeeds. -/
theorem c10_batch_switch_guard_witness :
    updateBatch 0 alice .batch2 none s9 = (.error .activeBookingForDate, alice) ∧
    updateBatch 5 alice .batch2 none s9 = (.ok (), { alice with batch := .batch2 }) := by
  have h1 := (c10_batch_switch_guard 0 alice .batch2 none s9).1 (by decide)
  have h2 := (c10_batch_switch_guard 5 alice .batch2 none s9).2 (by decide)
  exact ⟨h1, h2⟩

end Seating
